import Mathlib

/-!
Verification of the FRED data-ingestion pipeline (news_app / src/data_ingestion).

The Python sources are shallowly embedded:
* `fred_transformers.py` — date / datetime / decimal parsing, the observation
  and series transformers and the validators;
* `fred_integration_service.py` — the check-then-act upsert engine for
  observations (`_upsert_observations`), the series upsert (`_upsert_series`),
  the sync-ledger write (`_log_sync_result`) and the orchestrator
  (`ingest_series`, `sync_multiple_series`).

Strings are Python `str` values; parsing works on their character lists.
Fallible Python code (exceptions) is embedded with `Option` / `Except`.
The persistent store is a list of rows; one SQLAlchemy session = one
state-passing step (the session autoflushes, so rows added earlier in a batch
are visible to later SELECTs of the same batch, which the list model mirrors).
-/

namespace Fred

/-! ### Character-list helpers (Python `str.split` / `str.join` / digits) -/

/-- `l.split(c)` of Python: split a character list on every occurrence of `c`.
Always returns at least one (possibly empty) chunk. -/
def splitOnChar (c : Char) : List Char → List (List Char)
  | [] => [[]]
  | x :: xs =>
    match splitOnChar c xs with
    | [] => [[]]
    | r :: rs => if x = c then [] :: r :: rs else (x :: r) :: rs

/-- `c.join(parts)` of Python: interleave the separator character. -/
def joinChar (c : Char) : List (List Char) → List Char
  | [] => []
  | [x] => x
  | x :: xs => x ++ c :: joinChar c xs

/-- Numeric value of a digit string (`int(s)` on an all-digit string). -/
def digitsVal (l : List Char) : Nat :=
  l.foldl (fun n ch => 10 * n + (ch.toNat - '0'.toNat)) 0

/-- All characters are ASCII digits. -/
def allDigits (l : List Char) : Bool :=
  l.all Char.isDigit

/-- Python `str.strip()`: drop whitespace from both ends. -/
def stripWs (l : List Char) : List Char :=
  ((l.dropWhile Char.isWhitespace).reverse.dropWhile Char.isWhitespace).reverse

theorem splitOnChar_ne_nil (c : Char) (l : List Char) : splitOnChar c l ≠ [] := by
  cases l with
  | nil => simp [splitOnChar]
  | cons x xs =>
    simp only [splitOnChar]
    cases h : splitOnChar c xs with
    | nil => simp
    | cons r rs =>
      by_cases hx : x = c <;> simp [hx]

/-! ### Calendar dates (`datetime.date`) and `strptime` -/

/-- A calendar date as produced by `datetime.strptime(...).date()`. -/
structure DateV where
  year : Nat
  month : Nat
  day : Nat
deriving DecidableEq, Repr

/-- Gregorian leap year, as validated by `datetime.date`. -/
def isLeapYear (y : Nat) : Bool :=
  (y % 4 == 0 && y % 100 != 0) || y % 400 == 0

/-- Days in a month, as validated by `datetime.date`. -/
def daysInMonth (y m : Nat) : Nat :=
  if m = 2 then (if isLeapYear y then 29 else 28)
  else if m = 4 ∨ m = 6 ∨ m = 9 ∨ m = 11 then 30
  else 31

/-- A 1-or-2-digit `strptime` field with values in `[lo, hi]`
(the regexes for `%m`, `%d`, `%H`, `%M`, `%S` all have this shape). -/
def parseField2 (lo hi : Nat) (l : List Char) : Option Nat :=
  if 1 ≤ l.length && l.length ≤ 2 && allDigits l
      && lo ≤ digitsVal l && digitsVal l ≤ hi then
    some (digitsVal l)
  else none

/-- `datetime.strptime(s, "%Y-%m-%d").date()` wrapped in try/except ValueError:
`%Y` is exactly four digits, `%m` in 1..12, `%d` in 1..31, full-string match;
`datetime.date` additionally requires `year ≥ 1` and the day to exist in the
month.  Failure (`ValueError`) is `none`. -/
def parseYMD (l : List Char) : Option DateV :=
  match splitOnChar '-' l with
  | [ys, ms, ds] =>
    if ys.length = 4 && allDigits ys then
      match parseField2 1 12 ms, parseField2 1 31 ds with
      | some m, some d =>
        let y := digitsVal ys
        if 1 ≤ y && d ≤ daysInMonth y m then some ⟨y, m, d⟩ else none
      | _, _ => none
    else none
  | _ => none

/-- `FredSeriesTransformer._parse_date` and
`FredObservationTransformer._parse_date`: `None`/empty is `None`, otherwise
`strptime "%Y-%m-%d"` with `ValueError` mapped to `None`. -/
def parse_date (s : Option String) : Option DateV :=
  match s with
  | none => none
  | some str => if str.data = [] then none else parseYMD str.data

/-- A timestamp as produced by `datetime.strptime` (no timezone). -/
structure DateTimeV where
  date : DateV
  hour : Nat
  minute : Nat
  second : Nat
deriving DecidableEq, Repr

/-- The `"%H:%M:%S"` part of `strptime`: hour in 0..23, minute and second in
0..59, each 1-or-2 digits, separated by colons, full match. -/
def parseHMS (l : List Char) : Option (Nat × Nat × Nat) :=
  match splitOnChar ':' l with
  | [hs, ms, ss] =>
    match parseField2 0 23 hs, parseField2 0 59 ms, parseField2 0 59 ss with
    | some h, some m, some s => some (h, m, s)
    | _, _, _ => none
  | _ => none

/-- `datetime.strptime(s, "%Y-%m-%d %H:%M:%S")`: the literal space in the
format matches one or more whitespace characters; date and time sub-patterns
contain no whitespace. -/
def parseYMDHMS (l : List Char) : Option DateTimeV :=
  let datePart := l.takeWhile (fun ch => !ch.isWhitespace)
  let rest := l.dropWhile (fun ch => !ch.isWhitespace)
  let timePart := rest.dropWhile Char.isWhitespace
  if rest ≠ [] && timePart.all (fun ch => !ch.isWhitespace) then
    match parseYMD datePart, parseHMS timePart with
    | some d, some t => some ⟨d, t.1, t.2.1, t.2.2⟩
    | _, _ => none
  else none

/-- `'-'.join(s.split('-')[:-1])` — the offset-stripping step of
`FredSeriesTransformer._parse_datetime`. -/
def stripLastHyphenField (l : List Char) : List Char :=
  joinChar '-' ((splitOnChar '-' l).dropLast)

/-- Character-list core of `FredSeriesTransformer._parse_datetime` (the input
is known non-empty there): if the string contains a space and a hyphen, drop
the last `'-'`-separated field (the numeric UTC offset of
`"2025-07-30 07:56:35-05"`) and parse `"%Y-%m-%d %H:%M:%S"`; otherwise parse
`"%Y-%m-%d"` (midnight).  Every `ValueError` is caught and becomes `none`. -/
def parseDatetimeChars (l : List Char) : Option DateTimeV :=
  if l.contains ' ' && l.contains '-' then
    parseYMDHMS (stripLastHyphenField l)
  else
    (parseYMD l).map (fun d => ⟨d, 0, 0, 0⟩)

/-- `FredSeriesTransformer._parse_datetime`: falsy input (`None` / empty)
is `None`, otherwise the character-level parse above. -/
def parse_datetime (s : Option String) : Option DateTimeV :=
  match s with
  | none => none
  | some str => if str.data = [] then none else parseDatetimeChars str.data

/-! ### Arbitrary-precision decimals (`decimal.Decimal`) -/

/-- A `decimal.Decimal` value as stored (sign, coefficient digits, exponent
for finite numbers; signed infinities; quiet/signaling NaN with a numeric
payload). -/
inductive DecimalV where
  | finite (neg : Bool) (coeff : Nat) (exp : Int)
  | infinite (neg : Bool)
  | nan (signaling : Bool) (neg : Bool) (payload : Nat)
deriving DecidableEq, Repr

/-- An optional leading `'+'`/`'-'` sign; `true` means negative. -/
def parseSign : List Char → Bool × List Char
  | '+' :: rest => (false, rest)
  | '-' :: rest => (true, rest)
  | l => (false, l)

/-- The `Decimal` coefficient part: `digits '.' [digits] | ['.'] digits`
(at least one digit overall, at most one point).  Returns the coefficient and
the fractional exponent `-len(frac)`. -/
def parseMantissa (l : List Char) : Option (Nat × Int) :=
  let ip := l.takeWhile Char.isDigit
  match l.drop ip.length with
  | [] => if ip = [] then none else some (digitsVal ip, 0)
  | '.' :: fp =>
    if allDigits fp && !(ip = [] && fp = []) then
      some (digitsVal (ip ++ fp), -(fp.length : Int))
    else none
  | _ => none

/-- The optional `Decimal` exponent part `('e'|'E') [sign] digits`;
an empty remainder contributes exponent `0`. -/
def parseExpPart (l : List Char) : Option Int :=
  match l with
  | [] => some 0
  | c :: rest =>
    if c = 'e' ∨ c = 'E' then
      let (neg, ds) := parseSign rest
      if ds ≠ [] && allDigits ds then
        some (if neg then -(digitsVal ds : Int) else (digitsVal ds : Int))
      else none
    else none

/-- The special `Decimal` spellings after the sign, case-insensitively:
`Inf`, `Infinity`, `NaN[digits]`, `sNaN[digits]`. -/
def parseSpecial (neg : Bool) (l : List Char) : Option DecimalV :=
  match l.map Char.toLower with
  | ['i', 'n', 'f'] => some (.infinite neg)
  | ['i', 'n', 'f', 'i', 'n', 'i', 't', 'y'] => some (.infinite neg)
  | 'n' :: 'a' :: 'n' :: ds =>
    if allDigits ds then some (.nan false neg (digitsVal ds)) else none
  | 's' :: 'n' :: 'a' :: 'n' :: ds =>
    if allDigits ds then some (.nan true neg (digitsVal ds)) else none
  | _ => none

/-- `Decimal(s)` wrapped in try/except (`InvalidOperation`/`ValueError` is
`none`): leading/trailing whitespace is stripped, underscores are removed
throughout, then `[sign] (coefficient [exponent] | special)`. -/
def parseDecimalStr (s : String) : Option DecimalV :=
  let l := (stripWs s.data).filter (fun ch => ch ≠ '_')
  let (neg, body) := parseSign l
  match parseSpecial neg body with
  | some d => some d
  | none =>
    let mant := body.takeWhile (fun ch => ch ≠ 'e' && ch ≠ 'E')
    match parseMantissa mant, parseExpPart (body.drop mant.length) with
    | some ce, some e2 => some (.finite neg ce.1 (ce.2 + e2))
    | _, _ => none

/-- `FredObservationTransformer._parse_value`: falsy (`None` or empty) or the
FRED missing-data sentinel `"."` is `None` (missing data, not an error);
anything else is `Decimal(str(s))` with parse failures logged and mapped to
`None`. -/
def parse_value (v : Option String) : Option DecimalV :=
  match v with
  | none => none
  | some s =>
    if s.data = [] ∨ s.data = ['.'] then none
    else parseDecimalStr s

/-! ### Observation transformation (`FredObservationTransformer`) -/

/-- One raw FRED observation record (a loosely-typed dict): a key that is
absent, or present with value `None`, is `none`. -/
structure RawObs where
  date : Option String
  value : Option String
  realtime_start : Option String
  realtime_end : Option String
deriving Repr

/-- One transformed observation dict / one `fred_observations` row: the dict
produced by `_transform_single_observation` and the row built from it by
`FredObservation(**obs_data)` carry exactly these fields (the clock reading
`datetime.now(UTC)` is the `created_at` value). -/
structure Obs where
  series_id : String
  observation_date : DateV
  value : Option DecimalV
  realtime_start : Option DateV
  realtime_end : Option DateV
  created_at : Nat
deriving DecidableEq, Repr

/-- `FredObservationTransformer._transform_single_observation`: a record with
no (or unparseable) date is dropped (`None`); the value and realtime dates
degrade to `None` individually, never dropping the record. `now` is the clock
reading used for `created_at`. -/
def transform_single_observation (now : Nat) (obs : RawObs) (sid : String) :
    Option Obs :=
  match obs.date with
  | none => none
  | some ds =>
    match parse_date (some ds) with
    | none => none
    | some d =>
      some { series_id := sid
             observation_date := d
             value := parse_value obs.value
             realtime_start := parse_date obs.realtime_start
             realtime_end := parse_date obs.realtime_end
             created_at := now }

/-- `FredObservationTransformer.transform_observations`: keep the successful
transforms, in order.  (`_transform_single_observation` catches every parse
failure internally, so the per-record try/except of the loop never fires;
the loop is exactly a `filterMap`.) -/
def transform_observations (now : Nat) (raws : List RawObs) (sid : String) :
    List Obs :=
  raws.filterMap (fun r => transform_single_observation now r sid)

/-- `FredDataValidator.validate_observation_data`: the transformed dict always
carries the keys `series_id` (a `str`, never `None`) and `observation_date`
(a parsed `date`, never `None`), so the `is None` checks always pass on
transformer output. -/
def validate_observation_data (_o : Obs) : Bool := true

/-- A raw record's date is present and parses under `"%Y-%m-%d"` — exactly the
condition under which `_transform_single_observation` keeps the record
(`parse_date` of a missing date is `none`). -/
def rawDateOk (r : RawObs) : Bool :=
  (parse_date r.date).isSome

/-! ### Series transformation and upsert (`FredSeriesTransformer`,
`FredIngestionService._upsert_series`) -/

/-- One raw FRED series-metadata record.  `category_id`, when present, is
already `str()`-converted here. -/
structure RawSeries where
  id : Option String
  title : Option String
  units : Option String
  units_short : Option String
  frequency : Option String
  frequency_short : Option String
  seasonal_adjustment : Option String
  source : Option String
  notes : Option String
  popularity : Int
  has_popularity : Bool
  observation_start : Option String
  observation_end : Option String
  last_updated : Option String
  category_id : Option String
deriving Repr

/-- Python `s[:n]`. -/
def truncate (n : Nat) (s : String) : String := ⟨s.data.take n⟩

/-- Python `s.strip()`. -/
def pyStrip (s : String) : String := ⟨stripWs s.data⟩

/-- The transformed series dict built by
`FredSeriesTransformer.transform_series_info`; the `category` key exists only
when the raw record had `category_id`. -/
structure SeriesData where
  series_id : String
  title : String
  units : String
  units_short : String
  frequency : String
  frequency_short : String
  seasonal_adjustment : String
  source : String
  notes : String
  popularity : Int
  observation_start : Option DateV
  observation_end : Option DateV
  last_updated : Option DateTimeV
  category : Option String
  created_at : Nat
  updated_at : Nat
deriving DecidableEq, Repr

/-- `FredSeriesTransformer.transform_series_info`: a missing/falsy `id` or a
missing/whitespace-only `title` raises `FredTransformationError`; otherwise
strings are silently truncated to their column limits, dates and the
last-updated timestamp degrade to `None` on parse failure, and `created_at` /
`updated_at` are the local clock reading `now`. -/
def transform_series_info (now : Nat) (raw : RawSeries) :
    Except String SeriesData :=
  match raw.id with
  | none => .error "Missing required field: id (series_id)"
  | some sid =>
    if sid.data = [] then .error "Missing required field: id (series_id)"
    else
      let title := pyStrip (raw.title.getD "")
      if title.data = [] then .error "Missing or empty title"
      else .ok
        { series_id := sid
          title := truncate 500 title
          units := truncate 200 (raw.units.getD "")
          units_short := truncate 50 (raw.units_short.getD "")
          frequency := truncate 20 (raw.frequency.getD "")
          frequency_short := truncate 5 (raw.frequency_short.getD "")
          seasonal_adjustment := truncate 50 (raw.seasonal_adjustment.getD "")
          source := truncate 200 (raw.source.getD "")
          notes := raw.notes.getD ""
          popularity := if raw.has_popularity then raw.popularity else 0
          observation_start := parse_date raw.observation_start
          observation_end := parse_date raw.observation_end
          last_updated := parse_datetime raw.last_updated
          category := raw.category_id
          created_at := now
          updated_at := now }

/-- `FredDataValidator.validate_series_data`: `series_id` and `title` present
and truthy (non-empty), and `series_id` at most 50 characters. -/
def validate_series_data (d : SeriesData) : Bool :=
  d.series_id.data ≠ [] && d.title.data ≠ [] && d.series_id.data.length ≤ 50

/-- One `fred_series` row.  The table additionally has a nullable
`subcategory` column that no transformed dict ever sets, and its nullable
`category` column is only set when the dict carries the key. -/
structure SeriesRow where
  series_id : String
  title : String
  units : String
  units_short : String
  frequency : String
  frequency_short : String
  seasonal_adjustment : String
  source : String
  notes : String
  popularity : Int
  observation_start : Option DateV
  observation_end : Option DateV
  last_updated : Option DateTimeV
  category : Option String
  subcategory : Option String
  created_at : Nat
  updated_at : Nat
deriving DecidableEq, Repr

/-- `FredSeries(**series_data)`: a fresh row from the dict; the absent
`subcategory` column defaults to NULL. -/
def rowOfSeriesData (d : SeriesData) : SeriesRow :=
  { series_id := d.series_id
    title := d.title
    units := d.units
    units_short := d.units_short
    frequency := d.frequency
    frequency_short := d.frequency_short
    seasonal_adjustment := d.seasonal_adjustment
    source := d.source
    notes := d.notes
    popularity := d.popularity
    observation_start := d.observation_start
    observation_end := d.observation_end
    last_updated := d.last_updated
    category := d.category
    subcategory := none
    created_at := d.created_at
    updated_at := d.updated_at }

/-- The update loop of `_upsert_series`:
`for key, value in series_data.items(): if key != 'created_at': setattr(...)`.
Every key carried by the dict except `created_at` overwrites the stored
column; columns the dict does not carry (`subcategory`, and `category` when
the dict lacks it) keep their stored values. -/
def updateSeriesRow (old : SeriesRow) (d : SeriesData) : SeriesRow :=
  { series_id := d.series_id
    title := d.title
    units := d.units
    units_short := d.units_short
    frequency := d.frequency
    frequency_short := d.frequency_short
    seasonal_adjustment := d.seasonal_adjustment
    source := d.source
    notes := d.notes
    popularity := d.popularity
    observation_start := d.observation_start
    observation_end := d.observation_end
    last_updated := d.last_updated
    category := match d.category with
      | some c => some c
      | none => old.category
    subcategory := old.subcategory
    created_at := old.created_at
    updated_at := d.updated_at }

/-- `FredIngestionService._upsert_series`: look the series up by primary key;
if it exists and updates are not requested, skip (`False`); if it exists and
updates are requested, overwrite every dict field except `created_at`
(`False`); otherwise insert a fresh row (`True`).  The store is keyed by the
primary key, so at most one row matches. -/
def upsert_series (store : List SeriesRow) (d : SeriesData)
    (update_existing : Bool) : List SeriesRow × Bool :=
  match store.find? (fun r => r.series_id == d.series_id) with
  | some _ =>
    if update_existing then
      (store.map (fun r =>
        if r.series_id == d.series_id then updateSeriesRow r d else r), false)
    else (store, false)
  | none => (store ++ [rowOfSeriesData d], true)

/-! ### The observation upsert engine
(`FredIngestionService._upsert_observations`) -/

/-- The WHERE clause of the existence check:
`series_id == obs.series_id AND observation_date == obs.observation_date`. -/
def obsKeyMatches (r : Obs) (o : Obs) : Bool :=
  r.series_id == o.series_id && r.observation_date == o.observation_date

/-- The (series id, observation date) key of a row. -/
def obsKey (r : Obs) : String × DateV := (r.series_id, r.observation_date)

/-- The update branch: overwrite `value`, `realtime_start`, `realtime_end`
of the stored row; `created_at` and the key are untouched. -/
def overwriteObs (r o : Obs) : Obs :=
  { r with value := o.value
           realtime_start := o.realtime_start
           realtime_end := o.realtime_end }

/-- The rows returned by the SELECT of the existence check. -/
def obsLookup (store : List Obs) (o : Obs) : List Obs :=
  store.filter (fun r => obsKeyMatches r o)

/-- The storage-layer error surfaced by the engine. -/
inductive UpsertError where
  | multipleResults
deriving DecidableEq, Repr

/-- SQLAlchemy `Result.scalar_one_or_none`: `None` for no row, the row for
exactly one, and `MultipleResultsFound` (an exception that aborts the batch)
for more than one. -/
def scalarOneOrNone (rows : List Obs) : Except UpsertError (Option Obs) :=
  match rows with
  | [] => .ok none
  | [r] => .ok (some r)
  | _ => .error .multipleResults

/-- The update branch's write, seen at the level of the whole table: the one
row matching the key is overwritten in place. -/
def overwritePass (o : Obs) (store : List Obs) : List Obs :=
  store.map (fun r => if obsKeyMatches r o then overwriteObs r o else r)

/-- The act phase of the per-point check-then-act: on a hit, overwrite the
matched row in place (`True` = updated); on a miss, add a fresh row
(`False` = added).  When this runs there is at most one matching row, so
rewriting every key-match rewrites exactly the found row. -/
def upsertApply (store : List Obs) (o : Obs) (found : Option Obs) :
    List Obs × Bool :=
  match found with
  | none => (store ++ [o], false)
  | some _ => (overwritePass o store, true)

/-- One iteration of the `_upsert_observations` loop: check, then act. -/
def upsertObsStep (store : List Obs) (o : Obs) :
    Except UpsertError (List Obs × Bool) :=
  match scalarOneOrNone (obsLookup store o) with
  | .error e => .error e
  | .ok found => .ok (upsertApply store o found)

/-- The loop of `_upsert_observations` with its two counters.  A raised
`MultipleResultsFound` propagates and aborts (and rolls back) the whole
batch. -/
def upsertObsLoop (store : List Obs) (a u : Nat) :
    List Obs → Except UpsertError (List Obs × Nat × Nat)
  | [] => .ok (store, a, u)
  | o :: rest =>
    match upsertObsStep store o with
    | .error e => .error e
    | .ok (st2, true) => upsertObsLoop st2 a (u + 1) rest
    | .ok (st2, false) => upsertObsLoop st2 (a + 1) u rest

/-- `FredIngestionService._upsert_observations`: the early return on an empty
batch and the check-then-act loop (the session autoflushes, so rows added
earlier in the batch are seen by later checks of the same batch). -/
def upsert_observations (store : List Obs) (batch : List Obs) :
    Except UpsertError (List Obs × Nat × Nat) :=
  match batch with
  | [] => .ok (store, 0, 0)
  | _ => upsertObsLoop store 0 0 batch

/-- The §3 uniqueness invariant: no two stored rows share
(series id, observation date). -/
def uniqueKeys (store : List Obs) : Prop :=
  store.Pairwise (fun r s => obsKey r ≠ obsKey s)

/-- Two upsert invocations racing on the same store: both existence checks
read the state before either write is visible (two sessions, row-by-row
check-then-act, no unique constraint in the `database_setup.py` schema and no
locks), then both act phases apply. -/
def racedUpsertPair (store : List Obs) (p q : Obs) :
    Except UpsertError (List Obs) :=
  match scalarOneOrNone (obsLookup store p),
        scalarOneOrNone (obsLookup store q) with
  | .ok f1, .ok f2 =>
    .ok (upsertApply (upsertApply store p f1).1 q f2).1
  | .error e, _ => .error e
  | _, .error e => .error e

/-! ### Sync ledger and orchestrator (`_log_sync_result`, `ingest_series`,
`sync_multiple_series`) -/

/-- One `fred_sync_log` row (append-only). -/
structure SyncLogRow where
  series_id : String
  sync_date : Nat
  records_added : Nat
  records_updated : Nat
  success : Bool
  error_message : Option String
  api_calls_used : Nat
deriving DecidableEq, Repr

/-- The whole persistent store: the three tables. -/
structure DBState where
  series : List SeriesRow
  obs : List Obs
  syncLog : List SyncLogRow
deriving DecidableEq, Repr

/-- The result dict built and returned by `ingest_series`. -/
structure IngestResult where
  series_id : String
  success : Bool
  series_added : Bool
  observations_added : Nat
  observations_updated : Nat
  error_message : Option String
  api_calls_used : Nat
deriving DecidableEq, Repr

/-- The initial result dict of `ingest_series`. -/
def initResult (sid : String) : IngestResult :=
  { series_id := sid, success := false, series_added := false
    observations_added := 0, observations_updated := 0
    error_message := none, api_calls_used := 0 }

/-- The ledger row written by `_log_sync_result` for a result dict at sync
start time `t`. -/
def mkSyncLogRow (r : IngestResult) (t : Nat) : SyncLogRow :=
  { series_id := r.series_id, sync_date := t
    records_added := r.observations_added
    records_updated := r.observations_updated
    success := r.success, error_message := r.error_message
    api_calls_used := r.api_calls_used }

/-- `FredIngestionService._log_sync_result`: append one ledger row in its own
session; a ledger-write failure would be logged and swallowed, never surfaced
(the model's ledger write always succeeds). -/
def log_sync_result (st : DBState) (r : IngestResult) (t : Nat) : DBState :=
  { st with syncLog := st.syncLog ++ [mkSyncLogRow r t] }

/-- The out-of-scope fetch capability (`FredApiClient`): either raw records or
a raised error.  The observation fetch receives the lookback window that
STEP 3 of `ingest_series` computes (`none` = full history for a
non-incremental ingestion, `some days_lookback` in update mode). -/
structure FetchEnv where
  fetchInfo : String → Except String RawSeries
  fetchObs : String → Option Nat → Except String (List RawObs)

/-- `FredIngestionService.ingest_series`: fetch metadata → transform →
validate → upsert metadata (own committed session) → fetch observations →
transform → validate-filter → upsert observations (own session) → write one
ledger row.  Every exception is caught by the surrounding try/except, which
records the error message and writes a failure ledger row; work committed by
earlier sessions persists.  The one success path that skips the ledger write
is the early return on an empty raw-observation list.  `now` is both the
clock reading and the sync start time. -/
def ingest_series (env : FetchEnv) (now : Nat) (st : DBState) (sid : String)
    (update_existing : Bool) (days_lookback : Nat) : DBState × IngestResult :=
  let r0 := initResult sid
  match env.fetchInfo sid with
  | .error e =>
    let r := { r0 with error_message := some e }
    (log_sync_result st r now, r)
  | .ok raw =>
    let r1 := { r0 with api_calls_used := 1 }
    match transform_series_info now raw with
    | .error e =>
      let r := { r1 with error_message := some e }
      (log_sync_result st r now, r)
    | .ok sd =>
      if !validate_series_data sd then
        let msg := "Series data validation failed for " ++ sid
        let r := { r1 with error_message := some msg }
        (log_sync_result st r now, r)
      else
        let step2 := upsert_series st.series sd update_existing
        let st1 := { st with series := step2.1 }
        let r2 := { r1 with series_added := step2.2 }
        match env.fetchObs sid
            (if update_existing then some days_lookback else none) with
        | .error e =>
          let r := { r2 with error_message := some e }
          (log_sync_result st1 r now, r)
        | .ok raws =>
          let r3 := { r2 with api_calls_used := 2 }
          if raws.isEmpty then
            (st1, { r3 with success := true })
          else
            let valid := (transform_observations now raws sid).filter
              validate_observation_data
            if valid.isEmpty then
              let r4 := { r3 with success := true }
              (log_sync_result st1 r4 now, r4)
            else
              match upsert_observations st1.obs valid with
              | .error _ =>
                let msg := "Multiple rows were found when one or none was required"
                let r := { r3 with error_message := some msg }
                (log_sync_result st1 r now, r)
              | .ok (obs2, a, u) =>
                let st2 := { st1 with obs := obs2 }
                let r4 := { r3 with observations_added := a
                                    observations_updated := u
                                    success := true }
                (log_sync_result st2 r4 now, r4)

/-- The summary dict returned by `sync_multiple_series`. -/
structure SyncSummary where
  total_series : Nat
  successful_series : Nat
  failed_series : Nat
  total_api_calls : Nat
  detailed_results : List IngestResult
deriving DecidableEq, Repr

/-- The loop of `sync_multiple_series`: each series is ingested in turn,
its result appended and counted.  (`ingest_series` catches every exception
internally, so the outer per-series try/except never fires; the fixed
inter-series delay has no observable effect on the state.) -/
def syncLoop (env : FetchEnv) (now : Nat) (update_existing : Bool)
    (days_lookback : Nat) (st : DBState) (acc : List IngestResult)
    (api succ fail : Nat) : List String → DBState × SyncSummary
  | [] => (st, { total_series := 0, successful_series := succ
                 failed_series := fail, total_api_calls := api
                 detailed_results := acc })
  | sid :: rest =>
    let step := ingest_series env now st sid update_existing days_lookback
    let r := step.2
    syncLoop env now update_existing days_lookback step.1 (acc ++ [r])
      (api + r.api_calls_used)
      (if r.success then succ + 1 else succ)
      (if r.success then fail else fail + 1) rest

/-- `FredIngestionService.sync_multiple_series`: iterate `ingest_series` over
the ids, isolating failures, and return the aggregate summary. -/
def sync_multiple_series (env : FetchEnv) (now : Nat) (st : DBState)
    (ids : List String) (update_existing : Bool) (days_lookback : Nat) :
    DBState × SyncSummary :=
  let out := syncLoop env now update_existing days_lookback st [] 0 0 0 ids
  (out.1, { out.2 with total_series := ids.length })

/-! ### Concrete sample data for the evaluation theorems -/

/-- A transformed 2025-04-01 GDP observation (value `30331.117`). -/
def obsGDP : Obs :=
  { series_id := "GDP", observation_date := ⟨2025, 4, 1⟩
    value := some (.finite false 30331117 (-3))
    realtime_start := some ⟨2025, 8, 7⟩, realtime_end := some ⟨2025, 8, 7⟩
    created_at := 0 }

/-- A transformed 2025-01-01 GDP observation (value `29962.047`). -/
def obsGDP2 : Obs :=
  { series_id := "GDP", observation_date := ⟨2025, 1, 1⟩
    value := some (.finite false 29962047 (-3))
    realtime_start := some ⟨2025, 8, 7⟩, realtime_end := some ⟨2025, 8, 7⟩
    created_at := 0 }

/-- A point for (series "X", date 2024-01-01) with value 100. -/
def obsX100 : Obs :=
  { series_id := "X", observation_date := ⟨2024, 1, 1⟩
    value := some (.finite false 100 0)
    realtime_start := some ⟨2024, 2, 1⟩, realtime_end := some ⟨2024, 2, 1⟩
    created_at := 0 }

/-- A revision of `obsX100`: same key, value 105, later validity window. -/
def obsX105 : Obs :=
  { series_id := "X", observation_date := ⟨2024, 1, 1⟩
    value := some (.finite false 105 0)
    realtime_start := some ⟨2024, 3, 1⟩, realtime_end := some ⟨2024, 3, 1⟩
    created_at := 1 }

/-- A raw observation whose value is the FRED missing-data sentinel. -/
def rawDotRecord : RawObs :=
  { date := some "2024-10-01", value := some "."
    realtime_start := some "2025-08-07", realtime_end := some "2025-08-07" }

/-- A well-formed raw observation record for date `d` and value `v`. -/
def mkRawObs (d v : String) : RawObs :=
  { date := some d, value := some v
    realtime_start := some "2025-08-07", realtime_end := some "2025-08-07" }

/-- Ten raw observation records of which two (a missing date and an
unparseable date) are structurally invalid. -/
def sample10 : List RawObs :=
  [ mkRawObs "2023-01-01" "1.0", mkRawObs "2023-04-01" "2.0",
    { date := none, value := some "3.0"
      realtime_start := some "2025-08-07", realtime_end := some "2025-08-07" },
    mkRawObs "2023-07-01" ".", mkRawObs "2023-10-01" "4.0",
    mkRawObs "2023-13-01" "5.0", mkRawObs "2024-01-01" "6.0",
    mkRawObs "2024-04-01" "oops", mkRawObs "2024-07-01" "7.0",
    mkRawObs "2024-10-01" "8.0" ]

/-- A transformed series-metadata dict for series "GDP" titled "A". -/
def sdA : SeriesData :=
  { series_id := "GDP", title := "A", units := "Billions of Dollars"
    units_short := "Bil.", frequency := "Quarterly", frequency_short := "Q"
    seasonal_adjustment := "SAAR", source := "BEA", notes := ""
    popularity := 93, observation_start := some ⟨1947, 1, 1⟩
    observation_end := some ⟨2025, 4, 1⟩
    last_updated := some ⟨⟨2025, 7, 30⟩, 7, 56, 35⟩
    category := none, created_at := 5, updated_at := 5 }

/-- The same series fetched again later with a different title. -/
def sdB : SeriesData :=
  { sdA with title := "B", created_at := 9, updated_at := 9 }

/-- An already-stored row for series "GDP" created at time 5. -/
def rowA : SeriesRow := rowOfSeriesData sdA

/-- The empty store. -/
def db0 : DBState := { series := [], obs := [], syncLog := [] }

/-- A raw metadata record for series id `sid`. -/
def mkRawSeries (sid : String) : RawSeries :=
  { id := some sid, title := some "Some Series", units := some "Units"
    units_short := some "U", frequency := some "Quarterly"
    frequency_short := some "Q", seasonal_adjustment := some "SA"
    source := some "SRC", notes := some "", popularity := 50
    has_popularity := true, observation_start := some "2024-01-01"
    observation_end := some "2025-01-01"
    last_updated := some "2025-07-30 07:56:35-05", category_id := none }

/-- A fetch environment over series "A", "B", "C" in which fetching series
"B" raises a `FetchError` and the other two series fetch cleanly. -/
def env3 : FetchEnv :=
  { fetchInfo := fun sid =>
      if sid = "B" then .error "Network error connecting to FRED API"
      else .ok (mkRawSeries sid)
    fetchObs := fun _ _ =>
      .ok [mkRawObs "2025-04-01" "30331.117", mkRawObs "2025-01-01" "."] }

/-! ### Helper lemmas about the observation upsert engine -/

theorem obsKeyMatches_iff {r o : Obs} :
    obsKeyMatches r o = true ↔ obsKey r = obsKey o := by
  simp [obsKeyMatches, obsKey, Prod.ext_iff]

theorem obsKeyMatches_self (o : Obs) : obsKeyMatches o o = true := by
  simp [obsKeyMatches]

theorem obsKeyMatches_of_ne {r o : Obs} (h : obsKey r ≠ obsKey o) :
    obsKeyMatches r o = false := by
  rcases hb : obsKeyMatches r o with _ | _
  · rfl
  · exact absurd (obsKeyMatches_iff.mp hb) h

theorem obsKey_overwrite (r o : Obs) : obsKey (overwriteObs r o) = obsKey r := rfl

theorem obsKeyMatches_overwrite (r o o' : Obs) :
    obsKeyMatches (overwriteObs r o) o' = obsKeyMatches r o' := rfl

theorem obsKeyMatches_congr {o o' : Obs} (h : obsKey o = obsKey o')
    (r : Obs) : obsKeyMatches r o = obsKeyMatches r o' := by
  rcases o with ⟨s, d, v, rs, re, c⟩
  rcases o' with ⟨s', d', v', rs', re', c'⟩
  obtain ⟨hs, hd⟩ : s = s' ∧ d = d' := by
    simpa [obsKey, Prod.ext_iff] using h
  simp [obsKeyMatches, hs, hd]

theorem obsLookup_append (l₁ l₂ : List Obs) (o : Obs) :
    obsLookup (l₁ ++ l₂) o = obsLookup l₁ o ++ obsLookup l₂ o := by
  simp [obsLookup]

theorem obsLookup_congr {o o' : Obs} (h : obsKey o = obsKey o')
    (store : List Obs) : obsLookup store o = obsLookup store o' := by
  unfold obsLookup
  exact List.filter_congr (fun r _ => obsKeyMatches_congr h r)

theorem obsLookup_eq_nil {store : List Obs} {o : Obs}
    (h : ∀ r ∈ store, obsKey r ≠ obsKey o) : obsLookup store o = [] := by
  unfold obsLookup
  rw [List.filter_eq_nil_iff]
  intro r hr
  simp [obsKeyMatches_of_ne (h r hr)]

theorem obsLookup_mem_key {store : List Obs} {o r : Obs}
    (h : r ∈ obsLookup store o) : obsKey r = obsKey o := by
  have := (List.mem_filter.mp h).2
  exact obsKeyMatches_iff.mp this

theorem obsKey_overwritePass_elem (o r : Obs) :
    obsKey (if obsKeyMatches r o then overwriteObs r o else r) = obsKey r := by
  by_cases h : obsKeyMatches r o <;> simp [h, obsKey_overwrite]

theorem obsLookup_overwritePass (store : List Obs) (o o' : Obs) :
    obsLookup (overwritePass o store) o'
      = (obsLookup store o').map
          (fun r => if obsKeyMatches r o then overwriteObs r o else r) := by
  unfold obsLookup overwritePass
  rw [List.filter_map]
  congr 1
  apply List.filter_congr
  intro r _
  show obsKeyMatches (if obsKeyMatches r o then overwriteObs r o else r) o'
      = obsKeyMatches r o'
  by_cases h : obsKeyMatches r o <;> simp [h, obsKeyMatches_overwrite]

theorem upsertObsStep_insert {store : List Obs} {o : Obs}
    (h : obsLookup store o = []) :
    upsertObsStep store o = .ok (store ++ [o], false) := by
  simp [upsertObsStep, h, scalarOneOrNone, upsertApply]

theorem upsertObsStep_update {store : List Obs} {o r : Obs}
    (h : obsLookup store o = [r]) :
    upsertObsStep store o = .ok (overwritePass o store, true) := by
  simp [upsertObsStep, h, scalarOneOrNone, upsertApply, overwritePass]

theorem overwriteObs_self (o : Obs) : overwriteObs o o = o := rfl

/-- Each loop iteration that succeeds bumps exactly one of the two counters. -/
theorem upsertObsLoop_counts (batch : List Obs) :
    ∀ (store : List Obs) (a u : Nat) {st : List Obs} {a' u' : Nat},
      upsertObsLoop store a u batch = .ok (st, a', u') →
      a' + u' = a + u + batch.length := by
  induction batch with
  | nil =>
    intro store a u st a' u' h
    simp only [upsertObsLoop, Except.ok.injEq, Prod.mk.injEq] at h
    obtain ⟨-, h1, h2⟩ := h
    simp only [List.length_nil]
    omega
  | cons o rest ih =>
    intro store a u st a' u' h
    simp only [upsertObsLoop] at h
    rcases hst : upsertObsStep store o with e | ⟨st2, b⟩
    · rw [hst] at h; cases h
    · rw [hst] at h
      cases b with
      | true =>
        have := ih st2 a (u + 1) h
        simpa [Nat.add_assoc, Nat.add_comm, Nat.add_left_comm] using this
      | false =>
        have := ih st2 (a + 1) u h
        simpa [Nat.add_assoc, Nat.add_comm, Nat.add_left_comm] using this

/-- First run against a store containing none of the batch's keys: with
pairwise-distinct keys every point takes the insert branch, appending the
batch in order. -/
theorem upsertObsLoop_all_new (batch : List Obs) :
    ∀ (store : List Obs) (a u : Nat),
      batch.Pairwise (fun x y => obsKey x ≠ obsKey y) →
      (∀ o ∈ batch, obsLookup store o = []) →
      upsertObsLoop store a u batch
        = .ok (store ++ batch, a + batch.length, u) := by
  induction batch with
  | nil => intro store a u _ _; simp [upsertObsLoop]
  | cons o rest ih =>
    intro store a u hpw hmiss
    have hstep := upsertObsStep_insert (hmiss o (by simp))
    have hrest : ∀ o' ∈ rest, obsLookup (store ++ [o]) o' = [] := by
      intro o' ho'
      rw [obsLookup_append, hmiss o' (by simp [ho'])]
      have hne : obsKey o ≠ obsKey o' :=
        (List.pairwise_cons.mp hpw).1 o' ho'
      simp [obsLookup, obsKeyMatches_of_ne hne]
    have := ih (store ++ [o]) (a + 1) u (List.pairwise_cons.mp hpw).2 hrest
    simp only [upsertObsLoop, hstep]
    rw [this]
    simp [Nat.add_assoc, Nat.add_comm, Nat.add_left_comm]

/-- Second run of an identical batch with pairwise-distinct keys over the
store it produced: every point takes the update branch, overwriting its own
row with its own values, leaving the store unchanged. -/
theorem upsertObsLoop_refresh (batch : List Obs) :
    ∀ (pre : List Obs) (a u : Nat),
      (pre ++ batch).Pairwise (fun x y => obsKey x ≠ obsKey y) →
      upsertObsLoop (pre ++ batch) a u batch
        = .ok (pre ++ batch, a, u + batch.length) := by
  induction batch with
  | nil => intro pre a u _; simp [upsertObsLoop]
  | cons o rest ih =>
    intro pre a u hpw
    obtain ⟨hpre, hrest, hcross⟩ := List.pairwise_append.mp hpw
    have hpre_nil : obsLookup pre o = [] :=
      obsLookup_eq_nil (fun r hr => hcross r hr o (by simp))
    have hrest_nil : obsLookup rest o = [] :=
      obsLookup_eq_nil (fun r hr =>
        fun he => (List.pairwise_cons.mp hrest).1 r hr he.symm)
    have hlook : obsLookup (pre ++ o :: rest) o = [o] := by
      rw [show pre ++ o :: rest = pre ++ [o] ++ rest by simp,
        obsLookup_append, obsLookup_append, hpre_nil, hrest_nil]
      simp [obsLookup, obsKeyMatches_self]
    have hstep := upsertObsStep_update hlook
    have hpass : overwritePass o (pre ++ o :: rest) = pre ++ o :: rest := by
      unfold overwritePass
      rw [List.map_append]
      congr 1
      · apply List.map_congr_left ?_ |>.trans (List.map_id pre)
        intro r hr
        simp [obsKeyMatches_of_ne (hcross r hr o (by simp))]
      · rw [List.map_cons]
        congr 1
        · simp [obsKeyMatches_self, overwriteObs_self]
        · apply List.map_congr_left ?_ |>.trans (List.map_id rest)
          intro r hr
          have hne : obsKey r ≠ obsKey o :=
            fun he => (List.pairwise_cons.mp hrest).1 r hr he.symm
          simp [obsKeyMatches_of_ne hne]
    have hre : pre ++ o :: rest = (pre ++ [o]) ++ rest := by simp
    have := ih (pre ++ [o]) a (u + 1) (by rw [← hre]; exact hpw)
    simp only [upsertObsLoop, hstep, hpass]
    rw [hre, this, ← hre]
    simp [Nat.add_assoc, Nat.add_comm, Nat.add_left_comm]

/-- One successful check-then-act step preserves the uniqueness invariant. -/
theorem upsertObsStep_preserves {store : List Obs} {o : Obs} {st : List Obs}
    {b : Bool} (h0 : uniqueKeys store)
    (h : upsertObsStep store o = .ok (st, b)) : uniqueKeys st := by
  rcases hl : obsLookup store o with _ | ⟨r, rest⟩
  · rw [upsertObsStep_insert hl] at h
    obtain ⟨hst, _⟩ : store ++ [o] = st ∧ false = b := by
      simpa using h
    subst hst
    rw [uniqueKeys, List.pairwise_append]
    refine ⟨h0, by simp, ?_⟩
    intro x hx y hy he
    have hyo : y = o := by simpa using hy
    have hxo : x ∈ obsLookup store o := by
      simp only [obsLookup, List.mem_filter]
      exact ⟨hx, obsKeyMatches_iff.mpr (hyo ▸ he)⟩
    rw [hl] at hxo
    cases hxo
  · rcases rest with _ | ⟨r2, rest2⟩
    · rw [upsertObsStep_update hl] at h
      obtain ⟨hst, _⟩ : overwritePass o store = st ∧ true = b := by
        simpa using h
      subst hst
      unfold uniqueKeys overwritePass
      apply List.Pairwise.map
      · intro x y hxy
        rw [obsKey_overwritePass_elem, obsKey_overwritePass_elem]
        exact hxy
      · exact h0
    · unfold upsertObsStep at h
      rw [hl] at h
      cases h

/-- A successful run of the loop preserves the uniqueness invariant. -/
theorem upsertObsLoop_preserves (batch : List Obs) :
    ∀ (store : List Obs) (a u : Nat) {st : List Obs} {a' u' : Nat},
      uniqueKeys store → upsertObsLoop store a u batch = .ok (st, a', u') →
      uniqueKeys st := by
  induction batch with
  | nil =>
    intro store a u st a' u' h0 h
    obtain ⟨hst, _⟩ : store = st ∧ a = a' ∧ u = u' := by
      simpa [upsertObsLoop] using h
    exact hst ▸ h0
  | cons o rest ih =>
    intro store a u st a' u' h0 h
    simp only [upsertObsLoop] at h
    rcases hst : upsertObsStep store o with e | ⟨st2, b⟩
    · rw [hst] at h; cases h
    · rw [hst] at h
      have h2 := upsertObsStep_preserves h0 hst
      cases b with
      | true => exact ih st2 a (u + 1) h2 h
      | false => exact ih st2 (a + 1) u h2 h

/-! ### Helper lemmas about split / join (for the offset-stripping claim) -/

theorem splitOnChar_no_sep (c : Char) (l : List Char) (h : c ∉ l) :
    splitOnChar c l = [l] := by
  induction l with
  | nil => rfl
  | cons x xs ih =>
    have hx : x ≠ c := fun he => h (he ▸ List.mem_cons_self x xs)
    have hxs : c ∉ xs := fun hm => h (List.mem_cons_of_mem x hm)
    simp only [splitOnChar, ih hxs]
    simp [hx]

theorem splitOnChar_append_sep (c : Char) (off : List Char) (hoff : c ∉ off) :
    ∀ core : List Char,
      splitOnChar c (core ++ c :: off) = splitOnChar c core ++ [off] := by
  intro core
  induction core with
  | nil => simp [splitOnChar, splitOnChar_no_sep c off hoff]
  | cons x xs ih =>
    show splitOnChar c (x :: (xs ++ c :: off)) = _
    rcases hs : splitOnChar c xs with _ | ⟨r, rs⟩
    · exact absurd hs (splitOnChar_ne_nil c xs)
    · simp only [splitOnChar, ih, hs, List.cons_append]
      by_cases hx : x = c <;> simp [hx]

theorem joinChar_splitOnChar (c : Char) (l : List Char) :
    joinChar c (splitOnChar c l) = l := by
  induction l with
  | nil => rfl
  | cons x xs ih =>
    simp only [splitOnChar]
    rcases hs : splitOnChar c xs with _ | ⟨r, rs⟩
    · exact absurd hs (splitOnChar_ne_nil c xs)
    · rw [hs] at ih
      by_cases hx : x = c
      · subst hx
        simp only [if_pos rfl]
        show x :: joinChar x (r :: rs) = x :: xs
        rw [ih]
      · simp only [if_neg hx]
        cases rs with
        | nil => simpa [joinChar] using congrArg (x :: ·) ih
        | cons r2 rs2 => simpa [joinChar] using congrArg (x :: ·) ih

theorem stripLastHyphenField_append (core off : List Char)
    (hoff : '-' ∉ off) :
    stripLastHyphenField (core ++ '-' :: off) = core := by
  unfold stripLastHyphenField
  rw [splitOnChar_append_sep '-' off hoff core, List.dropLast_concat,
    joinChar_splitOnChar]

/-! ### Helper lemmas about the orchestrator -/

/-- `ingest_series` labels its result with the requested series id, only ever
appends to the sync ledger, and on any failure writes that failure's own
ledger row. -/
theorem ingest_series_ledger (env : FetchEnv) (now : Nat) (st : DBState)
    (sid : String) (ue : Bool) (dl : Nat) :
    (ingest_series env now st sid ue dl).2.series_id = sid ∧
    (∃ t, (ingest_series env now st sid ue dl).1.syncLog = st.syncLog ++ t) ∧
    ((ingest_series env now st sid ue dl).2.success = false →
      mkSyncLogRow (ingest_series env now st sid ue dl).2 now
        ∈ (ingest_series env now st sid ue dl).1.syncLog) := by
  simp only [ingest_series]
  split
  · exact ⟨rfl, ⟨_, rfl⟩, fun _ => by simp [log_sync_result]⟩
  · split
    · exact ⟨rfl, ⟨_, rfl⟩, fun _ => by simp [log_sync_result]⟩
    · split
      · exact ⟨rfl, ⟨_, rfl⟩, fun _ => by simp [log_sync_result]⟩
      · split
        · exact ⟨rfl, ⟨_, rfl⟩, fun _ => by simp [log_sync_result]⟩
        · split
          · exact ⟨rfl, ⟨[], by simp⟩, fun hc => by simp at hc⟩
          · split
            · exact ⟨rfl, ⟨_, rfl⟩, fun hc => by simp at hc⟩
            · split
              · exact ⟨rfl, ⟨_, rfl⟩, fun _ => by simp [log_sync_result]⟩
              · exact ⟨rfl, ⟨_, rfl⟩, fun hc => by simp at hc⟩

/-- The loop of `sync_multiple_series` processes every id, in order,
counts successes and failures exactly, only appends to the ledger, and
keeps a ledger row for every failed result. -/
theorem syncLoop_spec (ids : List String) :
    ∀ (env : FetchEnv) (now : Nat) (ue : Bool) (dl : Nat) (st : DBState)
      (acc : List IngestResult) (api succ fail : Nat),
      ∃ rs : List IngestResult,
        (syncLoop env now ue dl st acc api succ fail ids).2.detailed_results
          = acc ++ rs ∧
        rs.map (fun r => r.series_id) = ids ∧
        (syncLoop env now ue dl st acc api succ fail ids).2.successful_series
          = succ + (rs.filter (fun r => r.success)).length ∧
        (syncLoop env now ue dl st acc api succ fail ids).2.failed_series
          = fail + (rs.filter (fun r => !r.success)).length ∧
        (∃ t, (syncLoop env now ue dl st acc api succ fail ids).1.syncLog
          = st.syncLog ++ t) ∧
        (∀ r ∈ rs, r.success = false →
          mkSyncLogRow r now
            ∈ (syncLoop env now ue dl st acc api succ fail ids).1.syncLog) := by
  induction ids with
  | nil =>
    intro env now ue dl st acc api succ fail
    exact ⟨[], by simp [syncLoop]⟩
  | cons sid rest ih =>
    intro env now ue dl st acc api succ fail
    obtain ⟨hsid, ⟨t0, hlog0⟩, hfail0⟩ :=
      ingest_series_ledger env now st sid ue dl
    set step := ingest_series env now st sid ue dl with hstep
    obtain ⟨rs', h1, h2, h3, h4, ⟨t1, hlog1⟩, h6⟩ :=
      ih env now ue dl step.1 (acc ++ [step.2]) (api + step.2.api_calls_used)
        (if step.2.success then succ + 1 else succ)
        (if step.2.success then fail else fail + 1)
    refine ⟨step.2 :: rs', ?_, ?_, ?_, ?_, ?_, ?_⟩
    · rw [show syncLoop env now ue dl st acc api succ fail (sid :: rest)
        = syncLoop env now ue dl step.1 (acc ++ [step.2])
            (api + step.2.api_calls_used)
            (if step.2.success then succ + 1 else succ)
            (if step.2.success then fail else fail + 1) rest from rfl, h1]
      simp
    · simp [h2, hsid]
    · rw [show syncLoop env now ue dl st acc api succ fail (sid :: rest)
        = syncLoop env now ue dl step.1 (acc ++ [step.2])
            (api + step.2.api_calls_used)
            (if step.2.success then succ + 1 else succ)
            (if step.2.success then fail else fail + 1) rest from rfl, h3]
      rcases hb : step.2.success <;> (simp [hb]; try omega)
    · rw [show syncLoop env now ue dl st acc api succ fail (sid :: rest)
        = syncLoop env now ue dl step.1 (acc ++ [step.2])
            (api + step.2.api_calls_used)
            (if step.2.success then succ + 1 else succ)
            (if step.2.success then fail else fail + 1) rest from rfl, h4]
      rcases hb : step.2.success <;> (simp [hb]; try omega)
    · refine ⟨t0 ++ t1, ?_⟩
      rw [show syncLoop env now ue dl st acc api succ fail (sid :: rest)
        = syncLoop env now ue dl step.1 (acc ++ [step.2])
            (api + step.2.api_calls_used)
            (if step.2.success then succ + 1 else succ)
            (if step.2.success then fail else fail + 1) rest from rfl,
        hlog1, hlog0]
      simp
    · intro r hr hrf
      rw [show syncLoop env now ue dl st acc api succ fail (sid :: rest)
        = syncLoop env now ue dl step.1 (acc ++ [step.2])
            (api + step.2.api_calls_used)
            (if step.2.success then succ + 1 else succ)
            (if step.2.success then fail else fail + 1) rest from rfl]
      rcases List.mem_cons.mp hr with hr1 | hr2
      · subst hr1
        rw [hlog1]
        exact List.mem_append_left _ (hfail0 hrf)
      · exact h6 r hr2 hrf

/-! ### Further shared helper lemmas -/

/-- A singleton batch reduces to one check-then-act step. -/
theorem upsert_observations_single {s : List Obs} {o : Obs} {st : List Obs}
    {b : Bool} (h : upsertObsStep s o = .ok (st, b)) :
    upsert_observations s [o]
      = .ok (st, if b then 0 else 1, if b then 1 else 0) := by
  show upsertObsLoop s 0 0 [o] = _
  simp only [upsertObsLoop, h]
  cases b <;> rfl

/-- A record survives `_transform_single_observation` exactly when its date
is present and parseable. -/
theorem transform_single_isSome (now : Nat) (r : RawObs) (sid : String) :
    (transform_single_observation now r sid).isSome = rawDateOk r := by
  unfold transform_single_observation rawDateOk
  rcases hd : r.date with _ | ds
  · rfl
  · rcases hp : parse_date (some ds) with _ | d <;> simp [hp]

/-- Every result is either a success or a failure, so the two filtered
sub-lists partition the results. -/
theorem filter_success_split (rs : List IngestResult) :
    (rs.filter (fun r => r.success)).length
      + (rs.filter (fun r => !r.success)).length = rs.length := by
  induction rs with
  | nil => rfl
  | cons r rest ih =>
    rcases hb : r.success <;> simp [List.filter_cons, hb] <;> omega

/-! ### The claims -/

/-- **C1** (Upsert idempotence): for every validated batch of observation
points with pairwise-distinct (series id, observation date) keys, running
`_upsert_observations` against an empty initial store and then running it
again on the identical batch yields, after the second run, exactly the same
persisted rows as after the first run, and the second run returns
`added = 0` and `updated = len(batch)`. -/
theorem upsert_idempotence (batch : List Obs)
    (hkeys : batch.Pairwise (fun x y => obsKey x ≠ obsKey y)) :
    ∃ S1, upsert_observations [] batch = .ok (S1, batch.length, 0) ∧
      upsert_observations S1 batch = .ok (S1, 0, batch.length) := by
  refine ⟨batch, ?_, ?_⟩
  · cases batch with
    | nil => rfl
    | cons o rest =>
      show upsertObsLoop [] 0 0 (o :: rest) = _
      have := upsertObsLoop_all_new (o :: rest) [] 0 0 hkeys
        (fun o' _ => rfl)
      simpa using this
  · cases batch with
    | nil => rfl
    | cons o rest =>
      show upsertObsLoop (o :: rest) 0 0 (o :: rest) = _
      have := upsertObsLoop_refresh (o :: rest) [] 0 0 (by simpa using hkeys)
      simpa using this

/-- Evaluation of C1 on a concrete two-point GDP batch. -/
theorem upsert_idempotence_witness :
    ∃ S1, upsert_observations [] [obsGDP, obsGDP2] = .ok (S1, 2, 0) ∧
      upsert_observations S1 [obsGDP, obsGDP2] = .ok (S1, 0, 2) := by
  have h := upsert_idempotence [obsGDP, obsGDP2] (by decide)
  simpa using h

/-- **C2** (Revision overwrite, last write wins): for every store state whose
key under consideration is unique, upserting a point for key (S, D) and then
upserting another point for the same key leaves exactly one row at (S, D)
whose value and validity window are those of the second upsert (even when the
second value is `None`); the second upsert is counted as "updated", not
"added". -/
theorem revision_overwrite (store : List Obs) (p1 p2 : Obs)
    (hkey : obsKey p1 = obsKey p2)
    (huniq : (obsLookup store p1).length ≤ 1) :
    ∃ st1 a1 u1, upsert_observations store [p1] = .ok (st1, a1, u1) ∧
      ∃ st2, upsert_observations st1 [p2] = .ok (st2, 0, 1) ∧
        ∃ row, obsLookup st2 p2 = [row] ∧ row.value = p2.value ∧
          row.realtime_start = p2.realtime_start ∧
          row.realtime_end = p2.realtime_end ∧ obsKey row = obsKey p2 := by
  have hm12 : obsKeyMatches p1 p2 = true := obsKeyMatches_iff.mpr hkey
  rcases hl : obsLookup store p1 with _ | ⟨r, rest⟩
  · -- key absent: insert then update
    have h1 := upsert_observations_single (upsertObsStep_insert hl)
    refine ⟨store ++ [p1], 1, 0, by simpa using h1, ?_⟩
    have hl2 : obsLookup (store ++ [p1]) p2 = [p1] := by
      rw [obsLookup_append, ← obsLookup_congr hkey store, hl]
      simp [obsLookup, hm12]
    have h2 := upsert_observations_single (upsertObsStep_update hl2)
    refine ⟨overwritePass p2 (store ++ [p1]), by simpa using h2, ?_⟩
    refine ⟨overwriteObs p1 p2, ?_, rfl, rfl, rfl, hkey⟩
    rw [obsLookup_overwritePass, hl2]
    simp [hm12]
  · rcases rest with _ | ⟨r2, rest2⟩
    · -- key present once: update then update
      have hmr1 : obsKeyMatches r p1 = true := by
        have : r ∈ obsLookup store p1 := by rw [hl]; simp
        exact (List.mem_filter.mp this).2
      have hmr2 : obsKeyMatches r p2 = true :=
        obsKeyMatches_iff.mpr ((obsKeyMatches_iff.mp hmr1).trans hkey)
      have h1 := upsert_observations_single (upsertObsStep_update hl)
      refine ⟨overwritePass p1 store, 0, 1, by simpa using h1, ?_⟩
      have hl2 : obsLookup (overwritePass p1 store) p2
          = [overwriteObs r p1] := by
        rw [obsLookup_overwritePass, ← obsLookup_congr hkey store, hl]
        simp [hmr1]
      have h2 := upsert_observations_single (upsertObsStep_update hl2)
      refine ⟨overwritePass p2 (overwritePass p1 store), by simpa using h2, ?_⟩
      refine ⟨overwriteObs (overwriteObs r p1) p2, ?_, rfl, rfl, rfl, ?_⟩
      · rw [obsLookup_overwritePass, hl2]
        simp [obsKeyMatches_overwrite, hmr2]
      · rw [obsKey_overwrite, obsKey_overwrite]
        exact (obsKeyMatches_iff.mp hmr1).trans hkey
    · rw [hl] at huniq
      simp at huniq

/-- Evaluation of C2: value 100 then value 105 at ("X", 2024-01-01). -/
theorem revision_overwrite_witness :
    ∃ st1 a1 u1, upsert_observations [] [obsX100] = .ok (st1, a1, u1) ∧
      ∃ st2, upsert_observations st1 [obsX105] = .ok (st2, 0, 1) ∧
        ∃ row, obsLookup st2 obsX105 = [row] ∧ row.value = obsX105.value ∧
          row.realtime_start = obsX105.realtime_start ∧
          row.realtime_end = obsX105.realtime_end ∧
          obsKey row = obsKey obsX105 := by
  exact revision_overwrite [] obsX100 obsX105 (by decide) (by decide)

/-- **C3, counterexample to the claim as stated**: the code's check-then-act
upsert has no concurrency protection and no retry — interleaving the two
existence checks of two racing upserts of the same ("X", 2024-01-01) point
before either write (both SELECTs see the empty store, both take the insert
branch) persists two rows with the same (series id, date) key. -/
theorem raced_upsert_produces_duplicate :
    racedUpsertPair [] obsX100 obsX100 = .ok [obsX100, obsX100] ∧
    ¬ uniqueKeys [obsX100, obsX100] := by
  refine ⟨rfl, fun h => ?_⟩
  exact (List.pairwise_cons.mp h).1 obsX100 (by simp) rfl

/-- **C3, amended** (Uniqueness under sequential upserts): under sequential
(single-writer) execution, a successful `_upsert_observations` run preserves
the invariant that no two persisted rows share (series id, observation
date). -/
theorem upsert_preserves_uniqueness (store batch : List Obs)
    {st : List Obs} {a u : Nat} (h0 : uniqueKeys store)
    (h : upsert_observations store batch = .ok (st, a, u)) : uniqueKeys st := by
  cases batch with
  | nil =>
    have h' : (store, (0 : Nat), (0 : Nat)) = (st, a, u) := by
      simpa [upsert_observations] using h
    obtain ⟨h1, -, -⟩ : store = st ∧ (0 : Nat) = a ∧ (0 : Nat) = u := by
      simpa [Prod.ext_iff] using h'
    exact h1 ▸ h0
  | cons o rest => exact upsertObsLoop_preserves (o :: rest) store 0 0 h0 h

/-- Evaluation of the amended C3 on a concrete one-point batch. -/
theorem upsert_preserves_uniqueness_witness : uniqueKeys [obsX100] :=
  upsert_preserves_uniqueness [] [obsX100] (List.Pairwise.nil) (by rfl)

/-- **C4** (Null-value sentinel semantics): every raw observation whose date
is present and parseable produces a point; the sentinel `"."`, the empty
string, a missing value, or any string failing `Decimal` parsing yields a
point whose value is null — distinct from every actual value, in particular
from 0 — and the record is neither dropped nor an exception raised. -/
theorem null_value_sentinel (now : Nat) (r : RawObs) (sid : String)
    (hdate : rawDateOk r = true) :
    ∃ p, transform_single_observation now r sid = some p ∧
      p.value = parse_value r.value ∧
      ((r.value = none ∨ r.value = some "." ∨ r.value = some "" ∨
        ∃ s, r.value = some s ∧ parseDecimalStr s = none) → p.value = none) ∧
      ∀ d : DecimalV, (none : Option DecimalV) ≠ some d := by
  unfold rawDateOk at hdate
  rcases hd : r.date with _ | ds
  · rw [hd] at hdate; simp [parse_date] at hdate
  · rw [hd] at hdate
    rcases hp : parse_date (some ds) with _ | d
    · rw [hp] at hdate; simp at hdate
    · refine ⟨{ series_id := sid, observation_date := d
                value := parse_value r.value
                realtime_start := parse_date r.realtime_start
                realtime_end := parse_date r.realtime_end
                created_at := now }, ?_, rfl, ?_, fun _ hc => by cases hc⟩
      · simp only [transform_single_observation, hd, hp]
      · intro hv
        show parse_value r.value = none
        rcases hv with h1 | h1 | h1 | ⟨s, hs, hps⟩
        · rw [h1]; rfl
        · rw [h1]; rfl
        · rw [h1]; rfl
        · rw [hs]
          unfold parse_value
          by_cases hz : s.data = [] ∨ s.data = ['.']
          · simp [hz]
          · simp [hz, hps]

/-- Evaluation of C4 on a record with value `"."`. -/
theorem null_value_sentinel_witness :
    rawDateOk rawDotRecord = true ∧
    ∃ p, transform_single_observation 0 rawDotRecord "GDP" = some p ∧
      p.value = none := by
  obtain ⟨p, hp, -, himp, -⟩ :=
    null_value_sentinel 0 rawDotRecord "GDP" (by rfl)
  exact ⟨by rfl, p, hp, himp (Or.inr (Or.inl rfl))⟩

/-- **C5** (Partial-batch tolerance): normalization returns exactly the
transforms of the records whose date is present and parses under
`"%Y-%m-%d"`, dropping the rest and never raising; on the ten-record sample
with two bad dates it yields exactly eight points. -/
theorem partial_batch_tolerance (now : Nat) (raws : List RawObs)
    (sid : String) :
    transform_observations now raws sid
      = raws.filterMap (fun r => transform_single_observation now r sid) ∧
    (transform_observations now raws sid).length
      = (raws.filter rawDateOk).length ∧
    (transform_observations 0 sample10 "GDP").length = 8 := by
  refine ⟨rfl, ?_, by rfl⟩
  induction raws with
  | nil => rfl
  | cons r rest ih =>
    show (List.filterMap _ (r :: rest)).length = _
    rw [List.filterMap_cons]
    have hiso := transform_single_isSome now r sid
    rcases ht : transform_single_observation now r sid with _ | p
    · rw [ht] at hiso
      have hd : rawDateOk r = false := by simpa using hiso.symm
      simpa [List.filter_cons, hd] using ih
    · rw [ht] at hiso
      have hd : rawDateOk r = true := by simpa using hiso.symm
      simpa [List.filter_cons, hd] using ih

/-- **C6** (Metadata skip-on-exists): with update-disabled, upserting series
metadata for an unknown series inserts it and reports added (`True`); a
second call for the same series with any payload — even a different title —
leaves every stored field unchanged and reports not-added (`False`). -/
theorem metadata_skip_on_exists (store : List SeriesRow) (d d2 : SeriesData)
    (hid : d2.series_id = d.series_id)
    (habsent : ∀ r ∈ store, r.series_id ≠ d.series_id) :
    (upsert_series store d false).2 = true ∧
    upsert_series (upsert_series store d false).1 d2 false
      = ((upsert_series store d false).1, false) := by
  have hf : store.find? (fun r => r.series_id == d.series_id) = none := by
    rw [List.find?_eq_none]
    intro r hr
    simpa using habsent r hr
  have h1 : upsert_series store d false
      = (store ++ [rowOfSeriesData d], true) := by
    unfold upsert_series
    rw [hf]
  rw [h1]
  refine ⟨rfl, ?_⟩
  have hf0 : store.find? (fun r => r.series_id == d2.series_id) = none := by
    rw [List.find?_eq_none]
    intro r hr
    simpa [hid] using habsent r hr
  have hf2 : (store ++ [rowOfSeriesData d]).find?
      (fun r => r.series_id == d2.series_id) = some (rowOfSeriesData d) := by
    rw [List.find?_append, hf0]
    simp [rowOfSeriesData, hid]
  unfold upsert_series
  rw [hf2]
  rfl

/-- Evaluation of C6: ingest "GDP" titled "A", then again titled "B". -/
theorem metadata_skip_on_exists_witness :
    (upsert_series [] sdA false).2 = true ∧
    upsert_series (upsert_series [] sdA false).1 sdB false
      = ((upsert_series [] sdA false).1, false) :=
  metadata_skip_on_exists [] sdA sdB rfl (fun r hr => by cases hr)

/-- **C7** (Update-mode frame condition): for every existing series,
upserting with update requested reports not-added and overwrites the stored
row in place; every field carried by the incoming payload overwrites the
stored one, while the original `created_at` (and the `subcategory` column,
which no payload carries) is left unchanged. -/
theorem update_mode_frame (store : List SeriesRow) (d : SeriesData)
    (hex : ∃ r ∈ store, r.series_id = d.series_id) :
    (upsert_series store d true).2 = false ∧
    (upsert_series store d true).1
      = store.map (fun r =>
          if r.series_id == d.series_id then updateSeriesRow r d else r) ∧
    ∀ r : SeriesRow,
      (updateSeriesRow r d).created_at = r.created_at ∧
      (updateSeriesRow r d).subcategory = r.subcategory ∧
      (updateSeriesRow r d).series_id = d.series_id ∧
      (updateSeriesRow r d).title = d.title ∧
      (updateSeriesRow r d).units = d.units ∧
      (updateSeriesRow r d).units_short = d.units_short ∧
      (updateSeriesRow r d).frequency = d.frequency ∧
      (updateSeriesRow r d).frequency_short = d.frequency_short ∧
      (updateSeriesRow r d).seasonal_adjustment = d.seasonal_adjustment ∧
      (updateSeriesRow r d).source = d.source ∧
      (updateSeriesRow r d).notes = d.notes ∧
      (updateSeriesRow r d).popularity = d.popularity ∧
      (updateSeriesRow r d).observation_start = d.observation_start ∧
      (updateSeriesRow r d).observation_end = d.observation_end ∧
      (updateSeriesRow r d).last_updated = d.last_updated ∧
      (updateSeriesRow r d).updated_at = d.updated_at ∧
      (∀ c, d.category = some c → (updateSeriesRow r d).category = some c) := by
  obtain ⟨r0, hr0, he0⟩ := hex
  rcases hs : store.find? (fun r => r.series_id == d.series_id) with _ | rf
  · rw [List.find?_eq_none] at hs
    exact absurd (by simpa using he0) (hs r0 hr0)
  · have h1 : upsert_series store d true
        = (store.map (fun r =>
            if r.series_id == d.series_id then updateSeriesRow r d else r),
           false) := by
      unfold upsert_series
      rw [hs]
      rfl
    rw [h1]
    refine ⟨rfl, rfl, fun r => ?_⟩
    refine ⟨rfl, rfl, rfl, rfl, rfl, rfl, rfl, rfl, rfl, rfl, rfl, rfl, rfl,
      rfl, rfl, rfl, fun c hc => ?_⟩
    simp [updateSeriesRow, hc]

/-- Evaluation of C7: update the stored "GDP" row with a new payload. -/
theorem update_mode_frame_witness :
    (upsert_series [rowA] sdB true).2 = false ∧
    (upsert_series [rowA] sdB true).1 = [updateSeriesRow rowA sdB] ∧
    (updateSeriesRow rowA sdB).created_at = rowA.created_at ∧
    (updateSeriesRow rowA sdB).title = "B" := by
  have h := update_mode_frame [rowA] sdB ⟨rowA, by simp, rfl⟩
  refine ⟨h.1, ?_, (h.2.2 rowA).1, rfl⟩
  rw [h.2.1]
  rfl

/-- **C8** (Batch isolation across series): the multi-series sync processes
every requested series in order regardless of individual failures, each
failed series' error is recorded in that series' own ledger row, and the
aggregate summary reports exactly the number of series that succeeded and
the number that failed. -/
theorem batch_isolation (env : FetchEnv) (now : Nat) (st : DBState)
    (ids : List String) (ue : Bool) (dl : Nat) :
    (sync_multiple_series env now st ids ue dl).2.total_series
      = ids.length ∧
    (sync_multiple_series env now st ids ue dl).2.detailed_results.map
      (fun r => r.series_id) = ids ∧
    (sync_multiple_series env now st ids ue dl).2.successful_series
      = ((sync_multiple_series env now st ids ue dl).2.detailed_results.filter
          (fun r => r.success)).length ∧
    (sync_multiple_series env now st ids ue dl).2.failed_series
      = ((sync_multiple_series env now st ids ue dl).2.detailed_results.filter
          (fun r => !r.success)).length ∧
    (sync_multiple_series env now st ids ue dl).2.successful_series
      + (sync_multiple_series env now st ids ue dl).2.failed_series
      = ids.length ∧
    ∀ r ∈ (sync_multiple_series env now st ids ue dl).2.detailed_results,
      r.success = false →
        mkSyncLogRow r now
          ∈ (sync_multiple_series env now st ids ue dl).1.syncLog := by
  obtain ⟨rs, h1, h2, h3, h4, -, h6⟩ := syncLoop_spec ids env now ue dl st [] 0 0 0
  have e1 : (sync_multiple_series env now st ids ue dl).1
      = (syncLoop env now ue dl st [] 0 0 0 ids).1 := rfl
  have e2 : (sync_multiple_series env now st ids ue dl).2.detailed_results
      = (syncLoop env now ue dl st [] 0 0 0 ids).2.detailed_results := rfl
  have e3 : (sync_multiple_series env now st ids ue dl).2.successful_series
      = (syncLoop env now ue dl st [] 0 0 0 ids).2.successful_series := rfl
  have e4 : (sync_multiple_series env now st ids ue dl).2.failed_series
      = (syncLoop env now ue dl st [] 0 0 0 ids).2.failed_series := rfl
  have hrs : (sync_multiple_series env now st ids ue dl).2.detailed_results
      = rs := by rw [e2, h1]; simp
  refine ⟨rfl, ?_, ?_, ?_, ?_, ?_⟩
  · rw [hrs, h2]
  · rw [hrs, e3, h3]
    simp
  · rw [hrs, e4, h4]
    simp
  · rw [e3, e4, h3, h4]
    have := filter_success_split rs
    have hlen : rs.length = ids.length := by
      rw [← h2, List.length_map]
    omega
  · intro r hr hrf
    rw [hrs] at hr
    rw [e1]
    exact h6 r hr hrf

/-- Evaluation of C8: of three series "A", "B", "C" where fetching "B"
raises, the summary reports 2 succeeded and 1 failed, and the ledger holds
B's failure row. -/
theorem batch_isolation_witness :
    (sync_multiple_series env3 0 db0 ["A", "B", "C"] false 30).2.total_series
      = 3 ∧
    (sync_multiple_series env3 0 db0 ["A", "B", "C"] false
      30).2.successful_series = 2 ∧
    (sync_multiple_series env3 0 db0 ["A", "B", "C"] false 30).2.failed_series
      = 1 := by
  have h := batch_isolation env3 0 db0 ["A", "B", "C"] false 30
  refine ⟨h.1, ?_, ?_⟩
  · exact h.2.2.1.trans (by rfl)
  · exact h.2.2.2.1.trans (by rfl)

/-- **C9** (Datetime-with-offset normalization is total and strips the
offset): `_parse_datetime` never raises — every input yields `None` or a
parsed timestamp — and on a string carrying a trailing `'-'`-delimited
numeric UTC-offset field (the remainder containing a space), the offset
field is stripped and the remainder is parsed under `"%Y-%m-%d %H:%M:%S"`,
any failure yielding `None`. -/
theorem datetime_offset_strip (core off : List Char)
    (hsp : ' ' ∈ core) (hoff : '-' ∉ off) :
    (∀ s : Option String,
      parse_datetime s = none ∨ ∃ dt, parse_datetime s = some dt) ∧
    parseDatetimeChars (core ++ '-' :: off) = parseYMDHMS core := by
  constructor
  · intro s
    rcases h : parse_datetime s with _ | dt
    · exact Or.inl rfl
    · exact Or.inr ⟨dt, rfl⟩
  · have hc1 : (core ++ '-' :: off).contains ' ' = true :=
      List.elem_eq_true_of_mem (List.mem_append_left _ hsp)
    have hc2 : (core ++ '-' :: off).contains '-' = true :=
      List.elem_eq_true_of_mem (List.mem_append_right _ (by simp))
    unfold parseDatetimeChars
    rw [hc1, hc2]
    simp only [Bool.and_self, if_true]
    rw [stripLastHyphenField_append core off hoff]

/-- Evaluation of C9 on `"2025-07-30 07:56:35-05"`. -/
theorem datetime_offset_strip_witness :
    parseDatetimeChars "2025-07-30 07:56:35-05".data
      = parseYMDHMS "2025-07-30 07:56:35".data ∧
    parseDatetimeChars "2025-07-30 07:56:35-05".data
      = some ⟨⟨2025, 7, 30⟩, 7, 56, 35⟩ := by
  have h := datetime_offset_strip "2025-07-30 07:56:35".data "05".data
    (by decide) (by decide)
  exact ⟨h.2, by decide⟩

/-- **C10** (Upsert count conservation): every successful run of
`_upsert_observations` classifies each point of the batch exactly once, so
`added + updated = len(batch)`; and the empty batch returns `(0, 0)` without
touching the store. -/
theorem upsert_count_conservation (store batch st : List Obs) (a u : Nat)
    (h : upsert_observations store batch = .ok (st, a, u)) :
    a + u = batch.length ∧
    upsert_observations store [] = .ok (store, 0, 0) := by
  refine ⟨?_, rfl⟩
  cases batch with
  | nil =>
    have h' : (store, (0 : Nat), (0 : Nat)) = (st, a, u) := by
      simpa [upsert_observations] using h
    obtain ⟨-, h2, h3⟩ : store = st ∧ (0 : Nat) = a ∧ (0 : Nat) = u := by
      simpa [Prod.ext_iff] using h'
    simp [← h2, ← h3]
  | cons o rest =>
    have := upsertObsLoop_counts (o :: rest) store 0 0 h
    simpa using this

/-- Evaluation of C10 on a two-point batch over a store already holding one
of the keys: one added, one updated. -/
theorem upsert_count_conservation_witness :
    1 + 1 = [obsX105, obsGDP].length ∧
    upsert_observations [obsX100] [] = .ok ([obsX100], 0, 0) :=
  upsert_count_conservation [obsX100] [obsX105, obsGDP] _ 1 1 (by rfl)

end Fred
